import Mathlib

/-!
Verification of the athlete-support app's karte search / report aggregation /
coach-board pipeline, as a shallow embedding of `src/database.py` and
`src/app.py`.

SQL NULL is modelled as `none`; an SQL comparison of a column with a non-null
value is false when the column is NULL, which the embedding renders as equality
with `some v`.  The `LIKE '%kw%'` pattern is modelled as substring containment
(exact for keywords that contain no SQL wildcard characters).  Text comparison
(`date >= ...`) is the lexicographic order on strings, as in the store's C
collation; dates are stored as TEXT in the schema.
-/

/-- A row of the `KARTY_DATA` table (the columns used by the operations under
verification; `none` models SQL NULL).  `karte_id` is the SERIAL primary key. -/
structure Karte where
  karte_id : Nat
  player_id : Option Nat
  date : String
  tr : Option String
  s_content : Option String
  o_content : Option String
  a_content : Option String
  p_content : Option String
  time_loss_category : Option String
  injury_site : Option String
  injury_type : Option String
  report_flag : Nat
  participation_status : Option String
deriving DecidableEq

/-- The filter dictionary handed to `search_karty` (`src/app.py` `index`):
each value is what `request.args.get` returns, `none` when the parameter is
absent. -/
structure Filters where
  player_id : Option String
  start_date : Option String
  end_date : Option String
  keyword : Option String
  time_loss_category : Option String
deriving DecidableEq

/-- The empty filter set (no query parameters supplied). -/
def noFilters : Filters := ⟨none, none, none, none, none⟩

/-- Lexicographic text comparison, as the store compares TEXT columns
(C collation: by character code). -/
def dateLe (a b : String) : Prop := a.data ≤ b.data

instance (a b : String) : Decidable (dateLe a b) :=
  inferInstanceAs (Decidable (a.data ≤ b.data))

/-- The store's coercion of a bound string parameter to an INTEGER column:
a non-empty all-digit string parses to the number it denotes, anything else
fails. -/
def parseNat? (cs : List Char) : Option Nat :=
  if cs.isEmpty then none
  else if cs.all (fun c => decide (48 ≤ c.toNat) && decide (c.toNat ≤ 57)) then
    some (cs.foldl (fun acc c => acc * 10 + (c.toNat - 48)) 0)
  else none

/-- `needle` occurs as a contiguous substring of the second list. -/
def hasInfix (needle : List Char) : List Char → Bool
  | [] => needle.isEmpty
  | c :: t => needle.isPrefixOf (c :: t) || hasInfix needle t

/-- `col LIKE '%kw%'` on a nullable text column: NULL never matches; otherwise
substring containment. -/
def likeContains (field : Option String) (kw : String) : Bool :=
  match field with
  | none => false
  | some s => hasInfix kw.toList s.toList

/-- `if filters.get('player_id'): query += " AND k.player_id = %s"`
(`src/database.py:223`).  The bound value is a string; the store coerces it to
the INTEGER column type, and a coercion failure makes the statement fail, which
`_execute` converts to the empty result — rendered here as a row predicate that
no row satisfies. -/
def passPlayer (f : Filters) (k : Karte) : Bool :=
  match f.player_id with
  | none => true
  | some s =>
      if s = "" then true
      else
        match parseNat? s.data with
        | some n => k.player_id == some n
        | none => false

/-- `AND k.date >= %s` for a truthy `start_date` (`src/database.py:226`). -/
def passStart (f : Filters) (k : Karte) : Bool :=
  match f.start_date with
  | none => true
  | some s => if s = "" then true else decide (dateLe s k.date)

/-- `AND k.date <= %s` for a truthy `end_date` (`src/database.py:229`). -/
def passEnd (f : Filters) (k : Karte) : Bool :=
  match f.end_date with
  | none => true
  | some s => if s = "" then true else decide (dateLe k.date s)

/-- The `time_loss_category` branch of `search_karty`
(`src/database.py:232-237`): `TIME_LOSS_ONLY` becomes an OR-group over the two
literal categories, any other value different from `ALL` is an exact match,
and `ALL` adds no constraint. -/
def passCategory (f : Filters) (k : Karte) : Bool :=
  match f.time_loss_category with
  | none => true
  | some s =>
      if s = "" then true
      else if s = "TIME_LOSS_ONLY" then
        k.time_loss_category == some "TIME LOSS" || k.time_loss_category == some "RETURN TO PLAY"
      else if s ≠ "ALL" then k.time_loss_category == some s
      else true

/-- The keyword branch of `search_karty` (`src/database.py:238-241`): an
OR-group of `LIKE '%kw%'` over the five free-text columns s, o, a, p, tr. -/
def passKeyword (f : Filters) (k : Karte) : Bool :=
  match f.keyword with
  | none => true
  | some s =>
      if s = "" then true
      else
        likeContains k.s_content s || likeContains k.o_content s ||
        likeContains k.a_content s || likeContains k.p_content s ||
        likeContains k.tr s

/-- The conjunction of all WHERE clauses built by `search_karty`. -/
def karteMatches (f : Filters) (k : Karte) : Bool :=
  passPlayer f k && passStart f k && passEnd f k && passCategory f k && passKeyword f k

/-- The ordering relation of `ORDER BY k.date DESC`. -/
def dateDesc (a b : Karte) : Prop := dateLe b.date a.date

instance : DecidableRel dateDesc := fun a b => inferInstanceAs (Decidable (dateLe b.date a.date))

instance : IsTotal Karte dateDesc := ⟨fun a b => le_total b.date.data a.date.data⟩

instance : IsTrans Karte dateDesc := ⟨fun _ _ _ h1 h2 => le_trans (α := List Char) h2 h1⟩

/-- `search_karty` (`src/database.py:215-244`): rows satisfying every supplied
filter, ordered by date descending.  The LEFT JOIN only adds the player-name
display column (player_id is PLAYER_MASTER's primary key, so it never changes
the row multiset) and the SELECT list only projects display columns, so the
result is modelled as the matching karte rows themselves. -/
def search_karty (f : Filters) (t : List Karte) : List Karte :=
  List.insertionSort dateDesc (t.filter (karteMatches f))

theorem mem_search_karty {f : Filters} {t : List Karte} {k : Karte} :
    k ∈ search_karty f t ↔ k ∈ t ∧ karteMatches f k := by
  unfold search_karty
  rw [List.mem_insertionSort, List.mem_filter]

/-- C2: with `time_loss_category = "TIME_LOSS_ONLY"` the search returns exactly
the rows of category `"TIME LOSS"` or `"RETURN TO PLAY"` among the rows passing
the other filters; `"ALL"` imposes no category constraint; any other non-empty
value matches by exact equality on the category. -/
theorem search_karty_time_loss_only (t : List Karte) (f : Filters) :
    (f.time_loss_category = some "TIME_LOSS_ONLY" →
      ∀ k, k ∈ search_karty f t ↔
        k ∈ t ∧ passPlayer f k ∧ passStart f k ∧ passEnd f k ∧ passKeyword f k ∧
          (k.time_loss_category = some "TIME LOSS" ∨ k.time_loss_category = some "RETURN TO PLAY"))
    ∧ (f.time_loss_category = some "ALL" →
        search_karty f t = search_karty { f with time_loss_category := none } t)
    ∧ (∀ s, f.time_loss_category = some s → s ≠ "" → s ≠ "TIME_LOSS_ONLY" → s ≠ "ALL" →
        ∀ k, k ∈ search_karty f t → k.time_loss_category = some s) := by
  refine ⟨?_, ?_, ?_⟩
  · intro hf k
    rw [mem_search_karty]
    unfold karteMatches passCategory
    rw [hf]
    simp
    tauto
  · intro hf
    unfold search_karty
    have : karteMatches f = karteMatches { f with time_loss_category := none } := by
      funext k
      unfold karteMatches passPlayer passStart passEnd passCategory passKeyword
      rw [hf]
      simp
    rw [this]
  · intro s hf hne hnt hna k hk
    rw [mem_search_karty] at hk
    have hc := hk.2
    unfold karteMatches passCategory at hc
    rw [hf] at hc
    simp [hne, hnt, hna] at hc
    tauto

/-- A karte row with every nullable column NULL, used to build concrete
table states. -/
def mkRow (i : Nat) (pid : Option Nat) (d : String) : Karte :=
  ⟨i, pid, d, none, none, none, none, none, none, none, none, 0, none⟩

/-- Witness for `search_karty_time_loss_only` at a concrete table and filter
set. -/
theorem search_karty_time_loss_only_witness :
    ({ noFilters with time_loss_category := some "TIME_LOSS_ONLY" } : Filters).time_loss_category
        = some "TIME_LOSS_ONLY" ∧
    ({ mkRow 1 (some 1) "2024-01-01" with time_loss_category := some "TIME LOSS" } ∈
        search_karty { noFilters with time_loss_category := some "TIME_LOSS_ONLY" }
          [{ mkRow 1 (some 1) "2024-01-01" with time_loss_category := some "TIME LOSS" },
           { mkRow 2 (some 1) "2024-01-02" with time_loss_category := some "NON TIME LOSS" }] ↔
      { mkRow 1 (some 1) "2024-01-01" with time_loss_category := some "TIME LOSS" } ∈
          [{ mkRow 1 (some 1) "2024-01-01" with time_loss_category := some "TIME LOSS" },
           { mkRow 2 (some 1) "2024-01-02" with time_loss_category := some "NON TIME LOSS" }] ∧
        passPlayer { noFilters with time_loss_category := some "TIME_LOSS_ONLY" }
            { mkRow 1 (some 1) "2024-01-01" with time_loss_category := some "TIME LOSS" } ∧
        passStart { noFilters with time_loss_category := some "TIME_LOSS_ONLY" }
            { mkRow 1 (some 1) "2024-01-01" with time_loss_category := some "TIME LOSS" } ∧
        passEnd { noFilters with time_loss_category := some "TIME_LOSS_ONLY" }
            { mkRow 1 (some 1) "2024-01-01" with time_loss_category := some "TIME LOSS" } ∧
        passKeyword { noFilters with time_loss_category := some "TIME_LOSS_ONLY" }
            { mkRow 1 (some 1) "2024-01-01" with time_loss_category := some "TIME LOSS" } ∧
        (({ mkRow 1 (some 1) "2024-01-01" with
              time_loss_category := some "TIME LOSS" } : Karte).time_loss_category
              = some "TIME LOSS" ∨
          ({ mkRow 1 (some 1) "2024-01-01" with
              time_loss_category := some "TIME LOSS" } : Karte).time_loss_category
              = some "RETURN TO PLAY")) :=
  ⟨rfl,
   (search_karty_time_loss_only
      [{ mkRow 1 (some 1) "2024-01-01" with time_loss_category := some "TIME LOSS" },
       { mkRow 2 (some 1) "2024-01-02" with time_loss_category := some "NON TIME LOSS" }]
      { noFilters with time_loss_category := some "TIME_LOSS_ONLY" }).1 rfl _⟩

theorem passPlayer_sound {f : Filters} {k : Karte} (h : passPlayer f k = true) :
    ∀ s n, f.player_id = some s → parseNat? s.data = some n → k.player_id = some n := by
  intro s n hs hn
  simp only [passPlayer, hs] at h
  by_cases he : s = ""
  · have h0 : parseNat? ("" : String).data = none := by decide
    rw [he, h0] at hn
    cases hn
  · rw [if_neg he, hn] at h
    simpa using h

theorem passStart_sound {f : Filters} {k : Karte} (h : passStart f k = true) :
    ∀ s, f.start_date = some s → s ≠ "" → dateLe s k.date := by
  intro s hs he
  simp only [passStart, hs] at h
  rw [if_neg he] at h
  simpa using h

theorem passEnd_sound {f : Filters} {k : Karte} (h : passEnd f k = true) :
    ∀ s, f.end_date = some s → s ≠ "" → dateLe k.date s := by
  intro s hs he
  simp only [passEnd, hs] at h
  rw [if_neg he] at h
  simpa using h

theorem passKeyword_sound {f : Filters} {k : Karte} (h : passKeyword f k = true) :
    ∀ s, f.keyword = some s → s ≠ "" →
      (likeContains k.s_content s ∨ likeContains k.o_content s ∨ likeContains k.a_content s ∨
        likeContains k.p_content s ∨ likeContains k.tr s) := by
  intro s hs he
  simp only [passKeyword, hs] at h
  rw [if_neg he] at h
  simp only [Bool.or_eq_true] at h
  tauto

/-- C5: every row returned by `search_karty` satisfies each supplied filter,
the result is ordered by date descending, and dropping any one filter yields a
superset of the rows (monotonic relaxation). -/
theorem search_karty_sound_and_monotone (t : List Karte) (f : Filters) :
    (∀ k ∈ search_karty f t,
      (∀ s n, f.player_id = some s → parseNat? s.data = some n → k.player_id = some n)
      ∧ (∀ s, f.start_date = some s → s ≠ "" → dateLe s k.date)
      ∧ (∀ s, f.end_date = some s → s ≠ "" → dateLe k.date s)
      ∧ (∀ s, f.keyword = some s → s ≠ "" →
          (likeContains k.s_content s ∨ likeContains k.o_content s ∨ likeContains k.a_content s ∨
            likeContains k.p_content s ∨ likeContains k.tr s))
      ∧ passCategory f k = true)
    ∧ (search_karty f t).Pairwise dateDesc
    ∧ (∀ k ∈ search_karty f t, k ∈ search_karty { f with player_id := none } t)
    ∧ (∀ k ∈ search_karty f t, k ∈ search_karty { f with start_date := none } t)
    ∧ (∀ k ∈ search_karty f t, k ∈ search_karty { f with end_date := none } t)
    ∧ (∀ k ∈ search_karty f t, k ∈ search_karty { f with keyword := none } t)
    ∧ (∀ k ∈ search_karty f t, k ∈ search_karty { f with time_loss_category := none } t) := by
  have hmem : ∀ k ∈ search_karty f t, k ∈ t ∧
      passPlayer f k = true ∧ passStart f k = true ∧ passEnd f k = true ∧
      passCategory f k = true ∧ passKeyword f k = true := by
    intro k hk
    rw [mem_search_karty] at hk
    unfold karteMatches at hk
    simp only [Bool.and_eq_true] at hk
    tauto
  refine ⟨?_, ?_, ?_, ?_, ?_, ?_, ?_⟩
  · intro k hk
    obtain ⟨-, hp, hs, he, hc, hw⟩ := hmem k hk
    exact ⟨passPlayer_sound hp, passStart_sound hs, passEnd_sound he, passKeyword_sound hw, hc⟩
  · exact List.sorted_insertionSort dateDesc (t.filter (karteMatches f))
  · intro k hk
    obtain ⟨ht, -, hs, he, hc, hw⟩ := hmem k hk
    rw [mem_search_karty]
    unfold karteMatches
    simp only [Bool.and_eq_true, and_assoc]
    exact ⟨ht, rfl, hs, he, hc, hw⟩
  · intro k hk
    obtain ⟨ht, hp, -, he, hc, hw⟩ := hmem k hk
    rw [mem_search_karty]
    unfold karteMatches
    simp only [Bool.and_eq_true, and_assoc]
    exact ⟨ht, hp, rfl, he, hc, hw⟩
  · intro k hk
    obtain ⟨ht, hp, hs, -, hc, hw⟩ := hmem k hk
    rw [mem_search_karty]
    unfold karteMatches
    simp only [Bool.and_eq_true, and_assoc]
    exact ⟨ht, hp, hs, rfl, hc, hw⟩
  · intro k hk
    obtain ⟨ht, hp, hs, he, hc, -⟩ := hmem k hk
    rw [mem_search_karty]
    unfold karteMatches
    simp only [Bool.and_eq_true, and_assoc]
    exact ⟨ht, hp, hs, he, hc, rfl⟩
  · intro k hk
    obtain ⟨ht, hp, hs, he, -, hw⟩ := hmem k hk
    rw [mem_search_karty]
    unfold karteMatches
    simp only [Bool.and_eq_true, and_assoc]
    exact ⟨ht, hp, hs, he, rfl, hw⟩

/-- Witness for `search_karty_sound_and_monotone` at a concrete input. -/
theorem search_karty_sound_and_monotone_witness :
    mkRow 1 (some 1) "2024-01-01" ∈
      search_karty { noFilters with start_date := some "2024-01-01" }
        [mkRow 1 (some 1) "2024-01-01"] ∧
    mkRow 1 (some 1) "2024-01-01" ∈ search_karty noFilters [mkRow 1 (some 1) "2024-01-01"] :=
  ⟨by decide,
   (search_karty_sound_and_monotone [mkRow 1 (some 1) "2024-01-01"]
      { noFilters with start_date := some "2024-01-01" }).2.2.2.1
     (mkRow 1 (some 1) "2024-01-01") (by decide)⟩

/-- C9 (amended): an absent filter value and the empty-string value are
interchangeable — both are falsy in `if filters.get(...)`, so neither adds a
WHERE clause (`src/database.py:223-241`); and search never raises: `_execute`
converts any statement failure to an empty list (`src/database.py:128-146`),
which the model renders by total functions. -/
theorem search_karty_absent_eq_empty (t : List Karte) (f : Filters) :
    search_karty { f with player_id := some "" } t = search_karty { f with player_id := none } t
    ∧ search_karty { f with start_date := some "" } t
        = search_karty { f with start_date := none } t
    ∧ search_karty { f with end_date := some "" } t = search_karty { f with end_date := none } t
    ∧ search_karty { f with keyword := some "" } t = search_karty { f with keyword := none } t
    ∧ search_karty { f with time_loss_category := some "" } t
        = search_karty { f with time_loss_category := none } t :=
  ⟨rfl, rfl, rfl, rfl, rfl⟩

/-- C9 counterexample: a malformed (non-empty, non-date) `start_date` value is
not treated as "no constraint": it is applied as an ordinary lexicographic
bound and here excludes the only row, while the unconstrained search returns
it. -/
theorem search_karty_malformed_not_ignored :
    search_karty { noFilters with start_date := some "banana" }
        [mkRow 1 (some 1) "2024-01-01"] = []
    ∧ search_karty noFilters [mkRow 1 (some 1) "2024-01-01"] = [mkRow 1 (some 1) "2024-01-01"] :=
  ⟨by decide, by decide⟩

/-- `Const.STATUS_IN` (`src/app.py:44`). -/
def STATUS_IN : String := "IN (参加)"

/-- `Const.STATUS_RESTRICTION` (`src/app.py:45`). -/
def STATUS_RESTRICTION : String := "RESTRICTION (制限付)"

/-- `Const.STATUS_OUT` (`src/app.py:46`). -/
def STATUS_OUT : String := "OUT (不参加)"

/-- `Const.STATUS_GTD` (`src/app.py:47`). -/
def STATUS_GTD : String := "GTD (当日判断)"

/-- `priority_map.get(x.get('participation_status'), 99)` (`src/app.py:236-245`):
OUT=1, GTD=2, RESTRICTION=3, IN=4, anything else (a missing status included,
since `None` is not a key of the map) = 99. -/
def statusPriority (s : Option String) : Nat :=
  if s = some STATUS_OUT then 1
  else if s = some STATUS_GTD then 2
  else if s = some STATUS_RESTRICTION then 3
  else if s = some STATUS_IN then 4
  else 99

/-- The key order of `reports.sort(key=...)` in `coach_view`. -/
def coachPrio (a b : Karte) : Prop :=
  statusPriority a.participation_status ≤ statusPriority b.participation_status

instance : DecidableRel coachPrio := fun _ _ => Nat.decLe _ _

instance : IsTotal Karte coachPrio := ⟨fun _ _ => Nat.le_total _ _⟩

instance : IsTrans Karte coachPrio := ⟨fun _ _ _ => Nat.le_trans⟩

/-- The Coach Board Ranker's sort (`src/app.py:243-245`): Python `list.sort`
is a stable sort by the priority key; a stable sort by a total preorder is
extensionally unique, rendered here as stable insertion sort.  (The
`if reports:` guard only skips sorting the empty list, which sorts to itself
anyway.) -/
def coach_sort (reports : List Karte) : List Karte := List.insertionSort coachPrio reports

/-- A coach-board row `i` for player `i` with the given participation status. -/
def c1row (i : Nat) (s : String) : Karte :=
  { mkRow i (some i) "2024-01-01" with participation_status := some s, report_flag := 1 }

/-- C1: the Coach Board Ranker orders rows by participation-status priority
alone (OUT=1, GTD=2, RESTRICTION=3, IN=4, anything else 99), the sort is
stable, and on input statuses [IN, OUT, RESTRICTION, GTD, IN] it produces
[OUT, GTD, RESTRICTION, IN, IN] with the two IN rows in input order. -/
theorem coach_sort_priority_stable (rs : List Karte) :
    (coach_sort rs).Perm rs
    ∧ (coach_sort rs).Pairwise
        (fun a b => statusPriority a.participation_status ≤ statusPriority b.participation_status)
    ∧ (∀ a b : Karte,
        statusPriority a.participation_status = statusPriority b.participation_status →
        [a, b].Sublist rs → [a, b].Sublist (coach_sort rs))
    ∧ coach_sort
        [c1row 1 STATUS_IN, c1row 2 STATUS_OUT, c1row 3 STATUS_RESTRICTION,
         c1row 4 STATUS_GTD, c1row 5 STATUS_IN]
        = [c1row 2 STATUS_OUT, c1row 4 STATUS_GTD, c1row 3 STATUS_RESTRICTION,
           c1row 1 STATUS_IN, c1row 5 STATUS_IN] := by
  refine ⟨List.perm_insertionSort _ _, List.sorted_insertionSort coachPrio rs, ?_, by decide⟩
  intro a b hp hsub
  exact List.pair_sublist_insertionSort (le_of_eq hp) hsub

/-- Witness for `coach_sort_priority_stable`: the two IN rows of the concrete
example keep their relative order in the output. -/
theorem coach_sort_priority_stable_witness :
    [c1row 1 STATUS_IN, c1row 5 STATUS_IN].Sublist
      (coach_sort
        [c1row 1 STATUS_IN, c1row 2 STATUS_OUT, c1row 3 STATUS_RESTRICTION,
         c1row 4 STATUS_GTD, c1row 5 STATUS_IN]) :=
  (coach_sort_priority_stable
      [c1row 1 STATUS_IN, c1row 2 STATUS_OUT, c1row 3 STATUS_RESTRICTION,
       c1row 4 STATUS_GTD, c1row 5 STATUS_IN]).2.2.1
    (c1row 1 STATUS_IN) (c1row 5 STATUS_IN) rfl (by decide)

/-- Strict lexicographic text comparison (the strict part of `dateLe`). -/
def dateLt (a b : String) : Prop := a.data < b.data

instance (a b : String) : Decidable (dateLt a b) :=
  inferInstanceAs (Decidable (a.data < b.data))

/-- First sort-key component of `ORDER BY k.player_id`: Postgres sorts NULLs
last under ascending order. -/
def pNull (p : Option Nat) : Nat :=
  match p with
  | none => 1
  | some _ => 0

/-- Second sort-key component: the player id itself (0 for NULL; `pNull`
already separates NULL from everything else). -/
def pVal (p : Option Nat) : Nat := p.getD 0

/-- The sort key of `ORDER BY k.player_id, k.date DESC, k.karte_id DESC`
(`src/database.py:310`), as a value in a lexicographic linear order. -/
def ckey (k : Karte) :
    Lex (Nat × Lex (Nat × Lex ((OrderDual (List Char)) × OrderDual Nat))) :=
  toLex (pNull k.player_id,
    toLex (pVal k.player_id,
      toLex (OrderDual.toDual k.date.data, OrderDual.toDual k.karte_id)))

/-- The row order produced by `ORDER BY k.player_id, k.date DESC,
k.karte_id DESC`. -/
def coachOrd (a b : Karte) : Prop := ckey a ≤ ckey b

instance : DecidableRel coachOrd := fun a b => inferInstanceAs (Decidable (ckey a ≤ ckey b))

instance : IsTotal Karte coachOrd := ⟨fun a b => le_total (ckey a) (ckey b)⟩

instance : IsTrans Karte coachOrd := ⟨fun _ _ _ => le_trans⟩

/-- `SELECT DISTINCT ON (k.player_id) ...`: keep the first row of each
player_id group of the ordered row list (Postgres's DISTINCT ON keeps the
first row of each set of rows on which the DISTINCT ON expression is equal,
under the query's ORDER BY). -/
def distinctOnPlayer : List Karte → List Karte
  | [] => []
  | r :: rs => r :: distinctOnPlayer (rs.filter (fun x => x.player_id != r.player_id))
termination_by l => l.length
decreasing_by
  simp only [List.length_cons]
  exact Nat.lt_succ_of_le (List.length_filter_le _ _)

/-- `get_coach_reports` (`src/database.py:300-312`): the latest (by date, then
by id) `report_flag = 1` karte per player.  As with `search_karty`, the LEFT
JOIN and the SELECT projection only shape display columns and are dropped. -/
def get_coach_reports (t : List Karte) : List Karte :=
  distinctOnPlayer (List.insertionSort coachOrd (t.filter (fun k => k.report_flag == 1)))

theorem mem_of_mem_distinctOnPlayer (l : List Karte) :
    ∀ x ∈ distinctOnPlayer l, x ∈ l := by
  induction l using distinctOnPlayer.induct with
  | case1 =>
    intro x hx
    rw [distinctOnPlayer] at hx
    cases hx
  | case2 r rs ih =>
    intro x hx
    rw [distinctOnPlayer] at hx
    rcases List.mem_cons.mp hx with hx | hx
    · exact hx ▸ List.mem_cons_self _ _
    · exact List.mem_cons_of_mem _ (List.mem_of_mem_filter (ih x hx))

theorem distinctOnPlayer_pairwise_ne (l : List Karte) :
    (distinctOnPlayer l).Pairwise (fun a b => a.player_id ≠ b.player_id) := by
  induction l using distinctOnPlayer.induct with
  | case1 =>
    rw [distinctOnPlayer]
    exact List.Pairwise.nil
  | case2 r rs ih =>
    rw [distinctOnPlayer, List.pairwise_cons]
    refine ⟨?_, ih⟩
    intro x hx
    have hf := List.of_mem_filter (mem_of_mem_distinctOnPlayer _ x hx)
    simp only [bne_iff_ne, ne_eq] at hf
    exact fun h => hf h.symm

theorem distinctOnPlayer_covers (l : List Karte) :
    ∀ y ∈ l, ∃ x ∈ distinctOnPlayer l, x.player_id = y.player_id := by
  induction l using distinctOnPlayer.induct with
  | case1 =>
    intro y hy
    cases hy
  | case2 r rs ih =>
    intro y hy
    rw [distinctOnPlayer]
    rcases List.mem_cons.mp hy with hy | hy
    · exact ⟨r, List.mem_cons_self _ _, by rw [hy]⟩
    · by_cases hk : y.player_id = r.player_id
      · exact ⟨r, List.mem_cons_self _ _, hk.symm⟩
      · have hy2 : y ∈ rs.filter (fun x => x.player_id != r.player_id) := by
          rw [List.mem_filter]
          exact ⟨hy, by simpa [bne_iff_ne] using hk⟩
        obtain ⟨x, hx, hxy⟩ := ih y hy2
        exact ⟨x, List.mem_cons_of_mem _ hx, hxy⟩

theorem distinctOnPlayer_first {r : Karte → Karte → Prop} (l : List Karte) :
    l.Pairwise r → ∀ x ∈ distinctOnPlayer l, ∀ y ∈ l,
      y.player_id = x.player_id → x = y ∨ r x y := by
  induction l using distinctOnPlayer.induct with
  | case1 =>
    intro _ x hx
    rw [distinctOnPlayer] at hx
    cases hx
  | case2 hd tl ih =>
    intro hp x hx y hy hkey
    rw [distinctOnPlayer] at hx
    rw [List.pairwise_cons] at hp
    rcases List.mem_cons.mp hx with hx | hx
    · subst hx
      rcases List.mem_cons.mp hy with hy | hy
      · exact Or.inl hy.symm
      · exact Or.inr (hp.1 y hy)
    · have hxf := List.of_mem_filter (mem_of_mem_distinctOnPlayer _ x hx)
      simp only [bne_iff_ne, ne_eq] at hxf
      rcases List.mem_cons.mp hy with hy | hy
      · exact absurd (hy ▸ hkey).symm hxf
      · have hyk : y.player_id ≠ hd.player_id := fun h => hxf (hkey ▸ h)
        have hy2 : y ∈ tl.filter (fun z => z.player_id != hd.player_id) := by
          rw [List.mem_filter]
          exact ⟨hy, by simpa [bne_iff_ne] using hyk⟩
        exact ih (hp.2.sublist (List.filter_sublist _)) x hx y hy2 hkey

theorem coachOrd_same_player {r k : Karte} (h : coachOrd r k)
    (hp : k.player_id = r.player_id) :
    dateLt k.date r.date ∨ (k.date = r.date ∧ k.karte_id ≤ r.karte_id) := by
  unfold coachOrd ckey at h
  rw [hp] at h
  rw [Prod.Lex.le_iff] at h
  rcases h with h | ⟨-, h⟩
  · exact absurd h (lt_irrefl _)
  rw [Prod.Lex.le_iff] at h
  rcases h with h | ⟨-, h⟩
  · exact absurd h (lt_irrefl _)
  rw [Prod.Lex.le_iff] at h
  rcases h with h | ⟨he, h⟩
  · exact Or.inl (OrderDual.toDual_lt_toDual.mp h)
  · exact Or.inr ⟨(String.ext (OrderDual.toDual_inj.mp he)).symm,
      OrderDual.toDual_le_toDual.mp h⟩

/-- C3: `get_coach_reports` returns, per player with a `report_flag = 1`
entry, exactly that player's flagged entry of maximal date (ties broken by
maximal karte_id): every output row is a flagged table row, no two output
rows share a player_id, every player with a flagged row is represented, and
every other flagged row of the same player is strictly earlier in
(date, karte_id).  The hypothesis is the primary-key invariant of
KARTY_DATA: karte_ids are unique. -/
theorem get_coach_reports_latest_per_player (t : List Karte)
    (hids : (t.map Karte.karte_id).Nodup) :
    (∀ r ∈ get_coach_reports t, r ∈ t ∧ r.report_flag = 1)
    ∧ (get_coach_reports t).Pairwise (fun a b => a.player_id ≠ b.player_id)
    ∧ (∀ k ∈ t, k.report_flag = 1 → ∃ r ∈ get_coach_reports t, r.player_id = k.player_id)
    ∧ (∀ r ∈ get_coach_reports t, ∀ k ∈ t, k.report_flag = 1 → k.player_id = r.player_id →
        k = r ∨ dateLt k.date r.date ∨ (k.date = r.date ∧ k.karte_id < r.karte_id)) := by
  have hmem : ∀ {x : Karte},
      x ∈ List.insertionSort coachOrd (t.filter (fun k => k.report_flag == 1)) ↔
        x ∈ t ∧ x.report_flag = 1 := by
    intro x
    rw [List.mem_insertionSort, List.mem_filter, beq_iff_eq]
  have hout : ∀ {x : Karte}, x ∈ get_coach_reports t → x ∈ t ∧ x.report_flag = 1 := by
    intro x hx
    exact hmem.mp (mem_of_mem_distinctOnPlayer _ x hx)
  refine ⟨fun r hr => hout hr, distinctOnPlayer_pairwise_ne _, ?_, ?_⟩
  · intro k hk hflag
    exact distinctOnPlayer_covers _ k (hmem.mpr ⟨hk, hflag⟩)
  · intro r hr k hk hflag hkey
    by_cases hkr : k = r
    · exact Or.inl hkr
    have hsorted := List.sorted_insertionSort coachOrd (t.filter (fun k => k.report_flag == 1))
    rcases distinctOnPlayer_first _ hsorted r hr k (hmem.mpr ⟨hk, hflag⟩) hkey with he | hord
    · exact Or.inl he.symm
    right
    rcases coachOrd_same_player hord hkey with h | ⟨hd, hle⟩
    · exact Or.inl h
    · exact Or.inr ⟨hd, lt_of_le_of_ne hle
        (fun hid => hkr (List.inj_on_of_nodup_map hids hk (hout hr).1 hid))⟩

/-- Witness for `get_coach_reports_latest_per_player`: in a table with two
flagged rows for player 1 and one unflagged row, some output row carries
player 1. -/
theorem get_coach_reports_latest_per_player_witness :
    (([{ mkRow 1 (some 1) "2024-01-01" with report_flag := 1 },
       { mkRow 2 (some 1) "2024-02-01" with report_flag := 1 },
       mkRow 3 (some 2) "2024-03-01"].map Karte.karte_id).Nodup) ∧
    (∃ r ∈ get_coach_reports
        [{ mkRow 1 (some 1) "2024-01-01" with report_flag := 1 },
         { mkRow 2 (some 1) "2024-02-01" with report_flag := 1 },
         mkRow 3 (some 2) "2024-03-01"],
      r.player_id = ({ mkRow 1 (some 1) "2024-01-01" with report_flag := 1 } : Karte).player_id) :=
  ⟨by decide,
   (get_coach_reports_latest_per_player
      [{ mkRow 1 (some 1) "2024-01-01" with report_flag := 1 },
       { mkRow 2 (some 1) "2024-02-01" with report_flag := 1 },
       mkRow 3 (some 2) "2024-03-01"] (by decide)).2.2.1
     { mkRow 1 (some 1) "2024-01-01" with report_flag := 1 } (by decide) rfl⟩

/-- The WHERE clause of `get_latest_injury_date` (`src/database.py:314-324`):
same player, category exactly `NEW/RE-INJURY`, date at most the displayed
row's date.  A NULL bound player parameter matches no row, as in SQL. -/
def injuryCandidate (pid : Option Nat) (current : String) (k : Karte) : Bool :=
  (match pid with
   | none => false
   | some p => k.player_id == some p)
  && k.time_loss_category == some "NEW/RE-INJURY"
  && decide (dateLe k.date current)

/-- `ORDER BY date DESC LIMIT 1` over a projected date column: the maximal
date, `none` on an empty result. -/
def maxDate? : List String → Option String
  | [] => none
  | d :: ds =>
      match maxDate? ds with
      | none => some d
      | some m => some (if dateLe m d then d else m)

/-- `get_latest_injury_date` (`src/database.py:314-324`). -/
def get_latest_injury_date (t : List Karte) (pid : Option Nat) (current : String) :
    Option String :=
  maxDate? ((t.filter (injuryCandidate pid current)).map Karte.date)

theorem maxDate?_eq_none {l : List String} : maxDate? l = none ↔ l = [] := by
  induction l with
  | nil => simp [maxDate?]
  | cons d ds ih =>
    simp only [maxDate?]
    cases h : maxDate? ds <;> simp

theorem maxDate?_mem (l : List String) : ∀ m, maxDate? l = some m → m ∈ l := by
  induction l with
  | nil =>
    intro m h
    cases h
  | cons d ds ih =>
    intro m h
    simp only [maxDate?] at h
    cases hd : maxDate? ds with
    | none =>
      rw [hd] at h
      injection h with h
      exact h ▸ List.mem_cons_self _ _
    | some m2 =>
      rw [hd] at h
      injection h with h
      by_cases hle : dateLe m2 d
      · rw [if_pos hle] at h
        exact h ▸ List.mem_cons_self _ _
      · rw [if_neg hle] at h
        exact List.mem_cons_of_mem _ (h ▸ ih m2 hd)

theorem le_maxDate? (l : List String) : ∀ m, maxDate? l = some m → ∀ x ∈ l, dateLe x m := by
  induction l with
  | nil =>
    intro m h
    cases h
  | cons d ds ih =>
    intro m h x hx
    simp only [maxDate?] at h
    cases hd : maxDate? ds with
    | none =>
      rw [hd] at h
      injection h with h
      rcases List.mem_cons.mp hx with hx | hx
      · exact h ▸ hx ▸ le_refl _
      · exact absurd (maxDate?_eq_none.mp hd ▸ hx) (List.not_mem_nil x)
    | some m2 =>
      rw [hd] at h
      injection h with h
      by_cases hle : dateLe m2 d
      · rw [if_pos hle] at h
        rcases List.mem_cons.mp hx with hx | hx
        · exact h ▸ hx ▸ le_refl _
        · exact h ▸ le_trans (ih m2 hd x hx) hle
      · rw [if_neg hle] at h
        rcases List.mem_cons.mp hx with hx | hx
        · rcases le_total x.data m2.data with hx2 | hx2
          · exact h ▸ hx2
          · exact absurd (hx ▸ hx2 : dateLe m2 d) hle
        · exact h ▸ ih m2 hd x hx

/-- Modelled from the spec: the coach-board template that renders the
elapsed-days label is not part of `src/`, so the date parsing and the
"Day N (WxDy)" rendering follow the spec's words ("both parsed as calendar
dates", "Day {diff} (W{diff//7 + 1}D{diff%7})").  Parses a zero-padded ISO
`YYYY-MM-DD` string. -/
def parseDate? (s : String) : Option (Nat × Nat × Nat) :=
  match s.data with
  | [y1, y2, y3, y4, h1, m1, m2, h2, d1, d2] =>
      if h1 = '-' ∧ h2 = '-' ∧
          ([y1, y2, y3, y4, m1, m2, d1, d2].all
            (fun c => decide (48 ≤ c.toNat) && decide (c.toNat ≤ 57))) then
        some (((y1.toNat - 48) * 10 + (y2.toNat - 48)) * 100
                + (y3.toNat - 48) * 10 + (y4.toNat - 48),
              (m1.toNat - 48) * 10 + (m2.toNat - 48),
              (d1.toNat - 48) * 10 + (d2.toNat - 48))
      else none
  | _ => none

/-- Modelled from the spec: days-from-civil (proleptic Gregorian day number),
so that subtracting two values gives the integer day difference between two
calendar dates. -/
def civilDays (ymd : Nat × Nat × Nat) : Int :=
  let y := ymd.1
  let m := ymd.2.1
  let d := ymd.2.2
  let ys := if m ≤ 2 then y - 1 else y
  let era := ys / 400
  let yoe := ys - era * 400
  let mp := (m + 9) % 12
  let doy := (153 * mp + 2) / 5 + d - 1
  let doe := yoe * 365 + yoe / 4 - yoe / 100 + doy
  (era * 146097 + doe : Int) - 719468

/-- Modelled from the spec: integer day difference `second - first`, `none`
when either date is malformed (the spec leaves malformed dates an
unrecovered defect class). -/
def dateDiff? (d1 d2 : String) : Option Int :=
  match parseDate? d1, parseDate? d2 with
  | some a, some b => some (civilDays b - civilDays a)
  | _, _ => none

/-- Modelled from the spec: the label "Day N (WxDy)" with x = N//7 + 1 and
y = N%7 (Python floor division and modulus). -/
def dayLabel (diff : Int) : String :=
  "Day " ++ toString diff ++ " (W" ++ toString (Int.fdiv diff 7 + 1) ++ "D"
    ++ toString (Int.fmod diff 7) ++ ")"

/-- Modelled from the spec: the elapsed-days annotation of one displayed
coach-board row — "-" when the player has no NEW/RE-INJURY entry dated at most
the displayed date, otherwise the rendered day difference (`none` only on the
out-of-scope malformed-date defect path). -/
def elapsed_annotation (t : List Karte) (pid : Option Nat) (current : String) :
    Option String :=
  match get_latest_injury_date t pid current with
  | none => some "-"
  | some d => (dateDiff? d current).map dayLabel

/-- C4: the elapsed-days annotation is computed from the most recent
`NEW/RE-INJURY` entry of the same player dated at most the displayed date:
with no such entry the annotation is "-"; otherwise the injury date used is a
qualifying entry's date that bounds all qualifying entries from above, and the
annotation renders the day difference; on injury 2024-01-01 displayed
2024-01-15 it is "Day 14 (W3D0)". -/
theorem elapsed_annotation_spec (t : List Karte) (pid : Option Nat) (current : String) :
    ((∀ k ∈ t, injuryCandidate pid current k = false) →
        elapsed_annotation t pid current = some "-")
    ∧ (∀ d, get_latest_injury_date t pid current = some d →
        (∃ k ∈ t, injuryCandidate pid current k = true ∧ k.date = d)
        ∧ (∀ k ∈ t, injuryCandidate pid current k = true → dateLe k.date d)
        ∧ elapsed_annotation t pid current = (dateDiff? d current).map dayLabel)
    ∧ elapsed_annotation
        [{ mkRow 1 (some 1) "2024-01-01" with time_loss_category := some "NEW/RE-INJURY" }]
        (some 1) "2024-01-15" = some "Day 14 (W3D0)" := by
  refine ⟨?_, ?_, by decide⟩
  · intro hnone
    have hfilter : t.filter (injuryCandidate pid current) = [] := by
      rw [List.filter_eq_nil_iff]
      intro k hk
      simp [hnone k hk]
    unfold elapsed_annotation get_latest_injury_date
    rw [hfilter]
    rfl
  · intro d hd
    refine ⟨?_, ?_, ?_⟩
    · have hmem := maxDate?_mem _ d hd
      rw [List.mem_map] at hmem
      obtain ⟨k, hk, hkd⟩ := hmem
      rw [List.mem_filter] at hk
      exact ⟨k, hk.1, hk.2, hkd⟩
    · intro k hk hcand
      refine le_maxDate? _ d hd k.date ?_
      rw [List.mem_map]
      exact ⟨k, List.mem_filter.mpr ⟨hk, hcand⟩, rfl⟩
    · unfold elapsed_annotation
      rw [hd]

/-- Witness for `elapsed_annotation_spec`: the latest injury date of the
concrete one-row table is 2024-01-01, which is a qualifying entry's date. -/
theorem elapsed_annotation_spec_witness :
    get_latest_injury_date
        [{ mkRow 1 (some 1) "2024-01-01" with time_loss_category := some "NEW/RE-INJURY" }]
        (some 1) "2024-01-15" = some "2024-01-01" ∧
    (∃ k ∈ [{ mkRow 1 (some 1) "2024-01-01" with time_loss_category := some "NEW/RE-INJURY" }],
      injuryCandidate (some 1) "2024-01-15" k = true ∧ k.date = "2024-01-01") :=
  ⟨by decide,
   ((elapsed_annotation_spec
      [{ mkRow 1 (some 1) "2024-01-01" with time_loss_category := some "NEW/RE-INJURY" }]
      (some 1) "2024-01-15").2.1 "2024-01-01" (by decide)).1⟩

/-- A group row of `get_injury_report_data`: one (category, site, type) group
and its row count. -/
structure ReportRow where
  time_loss_category : Option String
  injury_site : Option String
  injury_type : Option String
  count : Nat
deriving DecidableEq

/-- The WHERE clause of the report queries:
`time_loss_category IN ('TIME LOSS', 'NEW/RE-INJURY', 'RETURN TO PLAY')`. -/
def tlRelevant (k : Karte) : Bool :=
  k.time_loss_category == some "TIME LOSS" || k.time_loss_category == some "NEW/RE-INJURY" ||
    k.time_loss_category == some "RETURN TO PLAY"

/-- `HAVING injury_site IS NOT NULL AND injury_site != ''`. -/
def siteOk : Option String → Bool
  | none => false
  | some s => s != ""

/-- The type of GROUP BY keys of `get_injury_report_data`. -/
abbrev GroupKey := Option String × Option String × Option String

/-- The GROUP BY key of `get_injury_report_data`. -/
def groupKey (k : Karte) : GroupKey :=
  (k.time_loss_category, k.injury_site, k.injury_type)

/-- `get_injury_report_data` (`src/database.py:289-291`): per
(category, site, type) group of the time-loss-relevant rows, the group key
and its COUNT(karte_id), keeping only groups with a non-null, non-empty
site.  Group order is unspecified in SQL; the first-occurrence order is one
admissible rendering and nothing below depends on it. -/
def get_injury_report_data (t : List Karte) : List ReportRow :=
  (((t.filter tlRelevant).map groupKey).dedup.filter (fun g => siteOk g.2.1)).map
    (fun g => ⟨g.1, g.2.1, g.2.2,
      ((t.filter tlRelevant).filter (fun k => decide (groupKey k = g))).length⟩)

/-- `site_summary[site] = site_summary.get(site, 0) + item['count']` on an
insertion-ordered dictionary (`src/app.py:176-179`). -/
def bumpSite : List (Option String × Nat) → Option String → Nat → List (Option String × Nat)
  | [], s, c => [(s, c)]
  | (s2, c2) :: rest, s, c =>
      if s2 = s then (s2, c2 + c) :: rest else (s2, c2) :: bumpSite rest s c

/-- The `site_summary` dictionary built by the `report` view. -/
def site_summary (data : List ReportRow) : List (Option String × Nat) :=
  data.foldl (fun acc item => bumpSite acc item.injury_site item.count) []

/-- The key order of `sorted(site_summary.items(), key=..., reverse=True)`. -/
def countDesc (a b : Option String × Nat) : Prop := b.2 ≤ a.2

instance : DecidableRel countDesc := fun a b => Nat.decLe b.2 a.2

instance : IsTotal (Option String × Nat) countDesc := ⟨fun a b => Nat.le_total b.2 a.2⟩

instance : IsTrans (Option String × Nat) countDesc := ⟨fun _ _ _ h1 h2 => Nat.le_trans h2 h1⟩

/-- `sorted_sites` of the `report` view (`src/app.py:181`): the per-site
summary sorted by count descending (stable, as Python's `sorted`). -/
def sorted_sites (t : List Karte) : List (Option String × Nat) :=
  List.insertionSort countDesc (site_summary (get_injury_report_data t))

theorem bumpSite_sum (acc : List (Option String × Nat)) (s : Option String) (c : Nat) :
    ((bumpSite acc s c).map Prod.snd).sum = (acc.map Prod.snd).sum + c := by
  induction acc with
  | nil => simp [bumpSite]
  | cons p rest ih =>
    obtain ⟨s2, c2⟩ := p
    simp only [bumpSite]
    by_cases h : s2 = s
    · rw [if_pos h]
      simp only [List.map_cons, List.sum_cons]
      omega
    · rw [if_neg h]
      simp only [List.map_cons, List.sum_cons, ih]
      omega

theorem site_summary_sum (data : List ReportRow) :
    ∀ acc, ((data.foldl (fun acc item => bumpSite acc item.injury_site item.count) acc).map
        Prod.snd).sum = (acc.map Prod.snd).sum + (data.map ReportRow.count).sum := by
  induction data with
  | nil =>
    intro acc
    simp
  | cons item rest ih =>
    intro acc
    simp only [List.foldl_cons]
    rw [ih (bumpSite acc item.injury_site item.count), bumpSite_sum]
    simp only [List.map_cons, List.sum_cons]
    omega

theorem bumpSite_fst (acc : List (Option String × Nat)) (s : Option String) (c : Nat) :
    ∀ x ∈ (bumpSite acc s c).map Prod.fst, x = s ∨ x ∈ acc.map Prod.fst := by
  induction acc with
  | nil =>
    intro x hx
    simp [bumpSite] at hx
    exact Or.inl hx
  | cons p rest ih =>
    obtain ⟨s2, c2⟩ := p
    intro x hx
    simp only [bumpSite] at hx
    by_cases h : s2 = s
    · rw [if_pos h] at hx
      simp only [List.map_cons, List.mem_cons] at hx
      rcases hx with hx | hx
      · exact Or.inr (by simp [hx])
      · exact Or.inr (by simp [hx])
    · rw [if_neg h] at hx
      simp only [List.map_cons, List.mem_cons] at hx
      rcases hx with hx | hx
      · exact Or.inr (by simp [hx])
      · rcases ih x hx with hx | hx
        · exact Or.inl hx
        · exact Or.inr (by simp [hx])

theorem site_summary_fst (data : List ReportRow) :
    ∀ acc, ∀ p ∈ data.foldl (fun acc item => bumpSite acc item.injury_site item.count) acc,
      p.1 ∈ acc.map Prod.fst ∨ ∃ item ∈ data, p.1 = item.injury_site := by
  induction data with
  | nil =>
    intro acc p hp
    exact Or.inl (List.mem_map_of_mem _ hp)
  | cons item rest ih =>
    intro acc p hp
    simp only [List.foldl_cons] at hp
    rcases ih (bumpSite acc item.injury_site item.count) p hp with hx | ⟨i, hi, he⟩
    · rcases bumpSite_fst acc item.injury_site item.count p.1 hx with hx | hx
      · exact Or.inr ⟨item, List.mem_cons_self _ _, hx⟩
      · exact Or.inl hx
    · exact Or.inr ⟨i, List.mem_cons_of_mem _ hi, he⟩

theorem countP_mem_cons (key : Karte → GroupKey) (rows : List Karte)
    (g : GroupKey) (ks : List GroupKey) (hg : g ∉ ks) :
    rows.countP (fun r => decide (key r ∈ g :: ks))
      = rows.countP (fun r => decide (key r = g))
        + rows.countP (fun r => decide (key r ∈ ks)) := by
  induction rows with
  | nil => simp
  | cons r rest ih =>
    simp only [List.countP_cons, ih]
    by_cases h : key r = g
    · have h2 : key r ∉ ks := h ▸ hg
      simp [h, h2, hg]
      omega
    · by_cases h2 : key r ∈ ks
      · simp [h, h2]
        omega
      · simp [h, h2]

theorem sum_group_counts (key : Karte → GroupKey) (rows : List Karte) :
    ∀ ks : List GroupKey, ks.Nodup →
      (ks.map (fun g => (rows.filter (fun r => decide (key r = g))).length)).sum
        = (rows.filter (fun r => decide (key r ∈ ks))).length := by
  intro ks
  induction ks with
  | nil =>
    intro _
    simp
  | cons g ks ih =>
    intro hnd
    rw [List.nodup_cons] at hnd
    simp only [List.map_cons, List.sum_cons]
    rw [ih hnd.2, ← List.countP_eq_length_filter, ← List.countP_eq_length_filter,
      ← List.countP_eq_length_filter, countP_mem_cons key rows g ks hnd.1]

theorem site_summary_sum2 (data : List ReportRow) :
    ((site_summary data).map Prod.snd).sum = (data.map ReportRow.count).sum := by
  unfold site_summary
  rw [site_summary_sum data []]
  simp

/-- C6: the per-site counts handed to the report chart sum to the number of
time-loss-relevant rows with a non-null, non-empty injury site; every site
bucket is such a site (null/empty-site rows feed no bucket); and the site
list is sorted by count descending. -/
theorem report_sites_spec (t : List Karte) :
    ((sorted_sites t).map Prod.snd).sum
        = (t.filter (fun k => tlRelevant k && siteOk k.injury_site)).length
    ∧ (∀ p ∈ sorted_sites t, siteOk p.1 = true)
    ∧ (sorted_sites t).Pairwise (fun a b => b.2 ≤ a.2) := by
  refine ⟨?_, ?_, List.sorted_insertionSort countDesc _⟩
  · have h1 : ((sorted_sites t).map Prod.snd).sum
        = ((site_summary (get_injury_report_data t)).map Prod.snd).sum :=
      ((List.perm_insertionSort countDesc _).map Prod.snd).sum_eq
    rw [h1, site_summary_sum2]
    unfold get_injury_report_data
    rw [List.map_map]
    have h2 := sum_group_counts groupKey (t.filter tlRelevant)
      (((t.filter tlRelevant).map groupKey).dedup.filter (fun g => siteOk g.2.1))
      (List.Nodup.filter _ (List.nodup_dedup _))
    have hmap : (ReportRow.count ∘ fun g =>
        ({ time_loss_category := g.1, injury_site := g.2.1, injury_type := g.2.2,
           count := ((t.filter tlRelevant).filter (fun k => decide (groupKey k = g))).length }
          : ReportRow))
        = fun g => ((t.filter tlRelevant).filter (fun r => decide (groupKey r = g))).length := rfl
    rw [hmap]
    refine h2.trans ?_
    have h3 : (t.filter tlRelevant).filter
          (fun r => decide (groupKey r ∈
            ((t.filter tlRelevant).map groupKey).dedup.filter (fun g => siteOk g.2.1)))
        = (t.filter tlRelevant).filter (fun r => siteOk r.injury_site) := by
      apply List.filter_congr
      intro r hr
      by_cases hs : siteOk r.injury_site = true
      · rw [hs, decide_eq_true_eq]
        rw [List.mem_filter, List.mem_dedup]
        exact ⟨List.mem_map_of_mem _ hr, hs⟩
      · have hs2 : siteOk r.injury_site = false := by
          revert hs
          cases siteOk r.injury_site <;> simp
        rw [hs2, decide_eq_false_iff_not]
        rw [List.mem_filter]
        intro hmem
        exact absurd hmem.2 (by rw [show (groupKey r).2.1 = r.injury_site from rfl, hs2]; simp)
    rw [h3, List.filter_filter]
    exact congrArg List.length (List.filter_congr (fun k _ => Bool.and_comm _ _))
  · intro p hp
    rw [sorted_sites, List.mem_insertionSort] at hp
    rcases site_summary_fst (get_injury_report_data t) [] p hp with hx | ⟨item, hi, he⟩
    · simp at hx
    · unfold get_injury_report_data at hi
      rw [List.mem_map] at hi
      obtain ⟨g, hg, hgi⟩ := hi
      rw [List.mem_filter] at hg
      rw [he, ← hgi]
      exact hg.2

/-- Witness for `report_sites_spec`: the single bucket of a one-row table has
a non-empty site. -/
theorem report_sites_spec_witness :
    (some "膝", 1) ∈ sorted_sites
        [{ mkRow 1 (some 1) "2024-01-01" with
            time_loss_category := some "TIME LOSS", injury_site := some "膝" }] ∧
    siteOk ((some "膝", 1) : Option String × Nat).1 = true :=
  ⟨by decide,
   (report_sites_spec
      [{ mkRow 1 (some 1) "2024-01-01" with
          time_loss_category := some "TIME LOSS", injury_site := some "膝" }]).2.1
     (some "膝", 1) (by decide)⟩

/-- The store-failure modes relevant to the write paths: a unique-constraint
violation (`psycopg2.errors.UniqueViolation`) or any other store error
(connectivity and the rest of `psycopg2.Error`). -/
inductive DbErr
  | uniqueViolation
  | operationalError
deriving DecidableEq

/-- `add_user` (`src/database.py:157-168`): returns True on success, catches
only `UniqueViolation` (returning False); any other store failure
propagates. -/
def add_user_exc (store : Except DbErr Unit) : Except DbErr Bool :=
  match store with
  | Except.ok _ => Except.ok true
  | Except.error DbErr.uniqueViolation => Except.ok false
  | Except.error e => Except.error e

/-- `add_player` (`src/database.py:183-194`): catches `UniqueViolation` and
then every remaining exception, returning False for both. -/
def add_player_exc (store : Except DbErr Unit) : Except DbErr Bool :=
  match store with
  | Except.ok _ => Except.ok true
  | Except.error DbErr.uniqueViolation => Except.ok false
  | Except.error _ => Except.ok false

/-- `update_player_name` (`src/database.py:196-204`): catches only
`UniqueViolation`. -/
def update_player_name_exc (store : Except DbErr Unit) : Except DbErr Bool :=
  match store with
  | Except.ok _ => Except.ok true
  | Except.error DbErr.uniqueViolation => Except.ok false
  | Except.error e => Except.error e

/-- `create_karte` (`src/database.py:246-256`): no try/except — every store
failure propagates to the caller (the function returns None on success). -/
def create_karte_exc (store : Except DbErr Unit) : Except DbErr Unit := store

/-- `update_karte` (`src/database.py:258-268`): no try/except. -/
def update_karte_exc (store : Except DbErr Unit) : Except DbErr Unit := store

/-- `delete_karte` (`src/database.py:278-282`): no try/except. -/
def delete_karte_exc (store : Except DbErr Unit) : Except DbErr Unit := store

/-- `delete_player` (`src/database.py:206-212`): no try/except. -/
def delete_player_exc (store : Except DbErr Unit) : Except DbErr Unit := store

/-- `delete_user` (`src/database.py:170-174`): no try/except. -/
def delete_user_exc (store : Except DbErr Unit) : Except DbErr Unit := store

/-- C7 counterexample: a store failure (connectivity error) inside
`create_karte` — and likewise a non-unique-violation failure inside
`add_user` — escapes to the caller instead of being converted to a boolean
failure signal. -/
theorem write_ops_raise :
    create_karte_exc (Except.error DbErr.operationalError)
        = Except.error DbErr.operationalError
    ∧ add_user_exc (Except.error DbErr.operationalError)
        = Except.error DbErr.operationalError :=
  ⟨rfl, rfl⟩

/-- C7 (amended): `add_player` converts every store failure to False;
`add_user` and `update_player_name` convert a unique-constraint violation to
False but let every other store failure propagate; karte create/update/delete,
player delete and user delete catch nothing, so every store failure
propagates. -/
theorem write_ops_error_handling (e : DbErr) :
    add_player_exc (Except.error e) = Except.ok false
    ∧ add_user_exc (Except.error DbErr.uniqueViolation) = Except.ok false
    ∧ update_player_name_exc (Except.error DbErr.uniqueViolation) = Except.ok false
    ∧ add_user_exc (Except.error DbErr.operationalError)
        = Except.error DbErr.operationalError
    ∧ update_player_name_exc (Except.error DbErr.operationalError)
        = Except.error DbErr.operationalError
    ∧ create_karte_exc (Except.error e) = Except.error e
    ∧ update_karte_exc (Except.error e) = Except.error e
    ∧ delete_karte_exc (Except.error e) = Except.error e
    ∧ delete_player_exc (Except.error e) = Except.error e
    ∧ delete_user_exc (Except.error e) = Except.error e
    ∧ add_user_exc (Except.ok ()) = Except.ok true
    ∧ add_player_exc (Except.ok ()) = Except.ok true := by
  refine ⟨?_, rfl, rfl, rfl, rfl, rfl, rfl, rfl, rfl, rfl, rfl, rfl⟩
  cases e <;> rfl

/-- A row of `PLAYER_MASTER`. -/
structure Player where
  player_id : Nat
  player_name : String
deriving DecidableEq

/-- The slice of the store that `delete_player` touches. -/
structure DbState where
  players : List Player
  karty : List Karte
deriving DecidableEq

/-- The two DELETE statements issued by `delete_player`
(`src/database.py:206-212`), in issue order: first the player's karte rows,
then the player row. -/
def delete_player_stmts (pid : Nat) : List (DbState → DbState) :=
  [fun st => { st with karty := st.karty.filter (fun k => k.player_id != some pid) },
   fun st => { st with players := st.players.filter (fun p => p.player_id != pid) }]

/-- A single store transaction over a statement list: the connection context
commits only after every statement succeeded; any mid-failure rolls the whole
transaction back to the initial state. -/
def run_transaction (st : DbState) (stmts : List (DbState → DbState)) (commit : Bool) :
    DbState :=
  if commit then stmts.foldl (fun s f => f s) st else st

/-- `delete_player` as the single transaction of its two statements. -/
def delete_player (st : DbState) (pid : Nat) (commit : Bool) : DbState :=
  run_transaction st (delete_player_stmts pid) commit

/-- C8: `delete_player` is atomic — after any outcome the state is either
untouched or has both deletions applied — and in the committed state no karte
row and no player row carries the deleted player_id, and neither the karte
search nor the coach report returns a row referencing it. -/
theorem delete_player_atomic (st : DbState) (pid : Nat) (commit : Bool) (f : Filters) :
    (delete_player st pid commit = st ∨
      delete_player st pid commit = run_transaction st (delete_player_stmts pid) true)
    ∧ (∀ k ∈ (run_transaction st (delete_player_stmts pid) true).karty,
        k.player_id ≠ some pid)
    ∧ (∀ p ∈ (run_transaction st (delete_player_stmts pid) true).players,
        p.player_id ≠ pid)
    ∧ (∀ k ∈ search_karty f (run_transaction st (delete_player_stmts pid) true).karty,
        k.player_id ≠ some pid)
    ∧ (∀ r ∈ get_coach_reports (run_transaction st (delete_player_stmts pid) true).karty,
        r.player_id ≠ some pid) := by
  have hk : ∀ k ∈ (run_transaction st (delete_player_stmts pid) true).karty,
      k.player_id ≠ some pid := by
    intro k hk
    have := List.of_mem_filter hk
    simpa [bne_iff_ne] using this
  refine ⟨?_, hk, ?_, ?_, ?_⟩
  · cases commit
    · exact Or.inl rfl
    · exact Or.inr rfl
  · intro p hp
    have := List.of_mem_filter hp
    simpa [bne_iff_ne] using this
  · intro k hks
    exact hk k (mem_search_karty.mp hks).1
  · intro r hr
    have hr2 := mem_of_mem_distinctOnPlayer _ r hr
    rw [List.mem_insertionSort, List.mem_filter] at hr2
    exact hk r hr2.1

/-- Witness for `delete_player_atomic`: deleting player 1 from a two-player
state keeps player 2's karte row, which indeed references a different
player. -/
theorem delete_player_atomic_witness :
    mkRow 2 (some 2) "2024-01-02" ∈
      (run_transaction
        ⟨[⟨1, "A"⟩, ⟨2, "B"⟩],
         [mkRow 1 (some 1) "2024-01-01", mkRow 2 (some 2) "2024-01-02"]⟩
        (delete_player_stmts 1) true).karty ∧
    (mkRow 2 (some 2) "2024-01-02").player_id ≠ some 1 :=
  ⟨by decide,
   (delete_player_atomic
      ⟨[⟨1, "A"⟩, ⟨2, "B"⟩],
       [mkRow 1 (some 1) "2024-01-01", mkRow 2 (some 2) "2024-01-02"]⟩
      1 true noFilters).2.1
     (mkRow 2 (some 2) "2024-01-02") (by decide)⟩

/-- A value submitted for a column: a text, an integer (the flag columns), or
SQL NULL. -/
inductive Val
  | str (s : String)
  | intv (n : Int)
  | null
deriving DecidableEq

/-- `_sanitize_values` (`src/database.py:149-151`): an empty-string value is
stored as NULL, every other value unchanged. -/
def sanitizeVal (v : Val) : Val := if v = Val.str "" then Val.null else v

/-- A `KARTY_DATA` row as `update_karte` manipulates it: the primary key and a
valuation of the remaining columns by name (`update_karte` builds its SET
clause from the submitted dictionary's keys, so this model is generic in the
column names rather than fixing a column list). -/
structure KRow where
  karte_id : Nat
  cols : String → Val

/-- The store slice seen by `update_karte`: the karte table plus the two
tables it must not touch. -/
structure KDbState where
  karty : List KRow
  players : List Player
  users : List (Nat × String)

/-- The SET clause `col1 = v1, col2 = v2, ...` applied left to right, each
assignment through `_sanitize_values`. -/
def applySet (cols : String → Val) : List (String × Val) → (String → Val)
  | [] => cols
  | (c, v) :: rest => applySet (fun c2 => if c2 = c then sanitizeVal v else cols c2) rest

/-- First binding of a column name in the submitted dictionary (a Python dict
has unique keys). -/
def dlookup (c : String) : List (String × Val) → Option Val
  | [] => none
  | (k, v) :: rest => if k = c then some v else dlookup c rest

/-- `update_karte` (`src/database.py:258-268`):
`UPDATE KARTY_DATA SET ... WHERE karte_id = %s` — rewrite exactly the rows
whose key matches, leaving the other tables alone. -/
def update_karte (st : KDbState) (kid : Nat) (data : List (String × Val)) : KDbState :=
  { st with
    karty := st.karty.map fun r =>
      if r.karte_id = kid then ⟨r.karte_id, applySet r.cols data⟩ else r }

theorem dlookup_eq_none (c : String) (l : List (String × Val))
    (hc : c ∉ l.map Prod.fst) : dlookup c l = none := by
  induction l with
  | nil => rfl
  | cons p rest ih =>
    obtain ⟨k, v⟩ := p
    rw [List.map_cons] at hc
    simp only [dlookup]
    rw [if_neg (fun h => hc (List.mem_cons.mpr (Or.inl h.symm)))]
    exact ih (fun h => hc (List.mem_cons_of_mem _ h))

theorem applySet_eq (data : List (String × Val)) :
    ∀ (cols : String → Val) (c : String), (data.map Prod.fst).Nodup →
      applySet cols data c =
        match dlookup c data with
        | some v => sanitizeVal v
        | none => cols c := by
  induction data with
  | nil =>
    intro cols c _
    rfl
  | cons p rest ih =>
    obtain ⟨k, v⟩ := p
    intro cols c hnd
    rw [List.map_cons, List.nodup_cons] at hnd
    simp only [applySet, dlookup]
    rw [ih _ c hnd.2]
    by_cases hkc : k = c
    · rw [if_pos hkc, dlookup_eq_none c rest (hkc ▸ hnd.1)]
      show (if c = k then sanitizeVal v else cols c) = sanitizeVal v
      rw [if_pos hkc.symm]
    · rw [if_neg hkc]
      cases hdl : dlookup c rest with
      | none =>
        show (if c = k then sanitizeVal v else cols c) = cols c
        rw [if_neg (fun h => hkc h.symm)]
      | some v2 => rfl

/-- C10: `update_karte` touches only the karte row with the given id — the
player and user tables and every other karte row are unchanged — and within
that row it sets exactly the columns named in the submitted dictionary, each
to its sanitized value (empty string becoming NULL), leaving every other
column as it was.  The hypothesis is that the submitted dictionary's keys are
unique, as Python dict keys are. -/
theorem update_karte_frame (st : KDbState) (kid : Nat) (data : List (String × Val))
    (hnd : (data.map Prod.fst).Nodup) :
    (update_karte st kid data).players = st.players
    ∧ (update_karte st kid data).users = st.users
    ∧ (update_karte st kid data).karty.length = st.karty.length
    ∧ sanitizeVal (Val.str "") = Val.null
    ∧ (∀ r ∈ st.karty, r.karte_id ≠ kid → r ∈ (update_karte st kid data).karty)
    ∧ (∀ r2 ∈ (update_karte st kid data).karty, ∃ r ∈ st.karty,
        r2.karte_id = r.karte_id
        ∧ (r.karte_id ≠ kid → r2 = r)
        ∧ (r.karte_id = kid →
            (∀ c v, dlookup c data = some v → r2.cols c = sanitizeVal v)
            ∧ (∀ c, dlookup c data = none → r2.cols c = r.cols c))) := by
  refine ⟨rfl, rfl, by simp [update_karte], rfl, ?_, ?_⟩
  · intro r hr hne
    unfold update_karte
    simp only [List.mem_map]
    exact ⟨r, hr, if_neg hne⟩
  · intro r2 hr2
    unfold update_karte at hr2
    rw [List.mem_map] at hr2
    obtain ⟨r, hr, he⟩ := hr2
    by_cases hid : r.karte_id = kid
    · rw [if_pos hid] at he
      refine ⟨r, hr, by rw [← he], fun hne => absurd hid hne, fun _ => ⟨?_, ?_⟩⟩
      · intro c v hc
        rw [← he]
        show applySet r.cols data c = sanitizeVal v
        simp only [applySet_eq data r.cols c hnd, hc]
      · intro c hc
        rw [← he]
        show applySet r.cols data c = r.cols c
        simp only [applySet_eq data r.cols c hnd, hc]
    · rw [if_neg hid] at he
      exact ⟨r, hr, by rw [he], fun _ => he.symm, fun h => absurd h hid⟩

/-- Witness for `update_karte_frame`: a two-binding dictionary with distinct
keys leaves the player table of a concrete state unchanged. -/
theorem update_karte_frame_witness :
    (([("a_content", Val.str "x"), ("tr", Val.str "")].map Prod.fst).Nodup) ∧
    (update_karte
        ⟨[⟨1, fun _ => Val.null⟩], [⟨1, "A"⟩], [(1, "admin")]⟩ 1
        [("a_content", Val.str "x"), ("tr", Val.str "")]).players
      = (⟨[⟨1, fun _ => Val.null⟩], [⟨1, "A"⟩], [(1, "admin")]⟩ : KDbState).players :=
  ⟨by decide,
   (update_karte_frame ⟨[⟨1, fun _ => Val.null⟩], [⟨1, "A"⟩], [(1, "admin")]⟩ 1
      [("a_content", Val.str "x"), ("tr", Val.str "")] (by decide)).1⟩
